import Mathlib

/- Verification of the trade-journal analytics core.

   Shallow embedding of the pure analytics layer (deriveTrades, computeSummary,
   computeEquityCurve, computeDrawdown, groupStats from src/app/data/analytics)
   and of the CSV-import / CSV-export / persistence-row boundary helpers
   (handleImportFile row loop, buildCsv, fromSupabaseRow from
   src/app/dashboard/ClientDashboard.tsx).

   JavaScript numbers are modelled as exact rationals (ℚ): the source code never
   relies on floating-point rounding (the spec mandates strict sign comparison
   and exact zero checks), so ℚ is the intended arithmetic model.  JavaScript
   strings are modelled as Lean Strings, with the string helpers implemented
   over the underlying character lists so that concrete runs reduce in the
   kernel. -/

namespace TradeJournal

/- ===== JS string helpers over character lists ===== -/

/-- Character code, lower-cased for ASCII letters (JS `toLowerCase` on the
    ASCII range; the journal's direction / header values are ASCII). -/
def lowerCode (c : Char) : Nat :=
  if 65 ≤ c.toNat ∧ c.toNat ≤ 90 then c.toNat + 32 else c.toNat

/-- JS whitespace for `trim` (space and the control whitespace range; the
    journal's CSV cells only ever carry these). -/
def isWsCode (n : Nat) : Bool := n = 32 || (9 ≤ n && n ≤ 13)

/-- Drop leading and trailing whitespace characters, JS `String.prototype.trim`. -/
def trimChars (l : List Char) : List Char :=
  ((l.dropWhile (fun c => isWsCode c.toNat)).reverse.dropWhile
    (fun c => isWsCode c.toNat)).reverse

/-- JS `value.trim()`. -/
def jsTrim (s : String) : String := ⟨trimChars s.data⟩

/-- Decimal digit test. -/
def isDigitChar (c : Char) : Bool := 48 ≤ c.toNat && c.toNat ≤ 57

/-- Value of a list of decimal digit characters. -/
def digitsVal (l : List Char) : Nat :=
  l.foldl (fun acc c => acc * 10 + (c.toNat - 48)) 0

/-- Lexicographic comparison by character code, the order JS
    `localeCompare` induces on the journal's ASCII date/time key strings. -/
def lexLe : List Char → List Char → Bool
  | [], _ => true
  | _ :: _, [] => false
  | a :: as, b :: bs =>
    if a.toNat < b.toNat then true
    else if b.toNat < a.toNat then false
    else lexLe as bs

/-- String comparison used by the equity-curve sort comparator. -/
def strLe (a b : String) : Bool := lexLe a.data b.data

/-- Does `l` start with `pat` (on lower-cased character codes)? -/
def startsWithCodes : List Nat → List Nat → Bool
  | _, [] => true
  | [], _ :: _ => false
  | a :: as, b :: bs => a = b && startsWithCodes as bs

/-- Does `l` contain `pat` as a contiguous run (JS `String.prototype.includes`)? -/
def codesContain (l pat : List Nat) : Bool :=
  match l with
  | [] => pat.isEmpty
  | _ :: rest => startsWithCodes l pat || codesContain rest pat

/-- Lower-cased character codes of a string (JS `value.toLowerCase()`,
    viewed through code points). -/
def lowerCodes (s : String) : List Nat := s.data.map lowerCode

/- ===== Data model (src/app/data/trades.ts) ===== -/

inductive Direction
  | Long
  | Short
deriving DecidableEq, Repr

inductive TradeResult
  | Win
  | Loss
  | BE
deriving DecidableEq, Repr

/-- The Trade record of src/app/data/trades.ts.  Optional fields default to
    `none` exactly as absent properties in the source object literals. -/
structure Trade where
  tradeId : String
  date : String
  instrument : String
  market : String
  entryTime : String
  exitTime : String
  strategy : String
  direction : Direction
  sizeQty : ℚ
  lots : Option ℚ := none
  lotSize : Option ℚ := none
  entryPrice : ℚ
  exitPrice : ℚ
  stopLoss : ℚ
  targetPrice : ℚ
  exitReason : String
  platform : String
  chartUrl : Option String := none
  remarks : Option String := none
  emotionTag : Option String := none
  emotionalState : Option String := none
  mindsetNotes : Option String := none
deriving DecidableEq, Repr

/- ===== Derivation engine (src/app/data/analytics.ts, deriveTrades) ===== -/

/-- Sunday-indexed weekday name table of the source. -/
def DAY_NAMES : List String := ["Sun", "Mon", "Tue", "Wed", "Thu", "Fri", "Sat"]

/-- Numeric value of a fixed-width digit slice of a string. -/
def natSlice (s : String) (start len : Nat) : Nat :=
  digitsVal ((s.data.drop start).take len)

/-- Days since 1970-01-01 of a proleptic-Gregorian civil date (the standard
    civil-from-days inverse used to model `new Date(date+"T00:00:00")`). -/
def daysFromCivil (y m d : Int) : Int :=
  let y2 : Int := if m ≤ 2 then y - 1 else y
  let era : Int := (if 0 ≤ y2 then y2 else y2 - 399) / 400
  let yoe : Int := y2 - era * 400
  let mp : Int := (m + 9) % 12
  let doy : Int := (153 * mp + 2) / 5 + d - 1
  let doe : Int := yoe * 365 + yoe / 4 - yoe / 100 + doy
  era * 146097 + doe - 719468

/-- JS `Date.prototype.getDay` (0 = Sunday) of a `YYYY-MM-DD` string:
    1970-01-01 was a Thursday (weekday 4). -/
def jsGetDay (date : String) : Nat :=
  ((daysFromCivil (natSlice date 0 4) (natSlice date 5 2) (natSlice date 8 2) + 4) % 7).toNat

/-- Minutes past midnight of a zero-padded `HH:mm` string; for two times on
    the same date the difference of `Date.getTime()` values in the source is
    exactly the difference of these minute counts times 60000. -/
def timeMinutes (t : String) : Int :=
  (natSlice t 0 2) * 60 + natSlice t 3 2

/-- The derived trade of src/app/data/analytics.ts: the trade plus the
    computed metrics. -/
structure DerivedTrade extends Trade where
  day : String
  risk : ℚ
  reward : ℚ
  riskReward : Option ℚ
  rr : Option ℚ
  pl : ℚ
  grossPl : ℚ
  netPl : ℚ
  winLoss : TradeResult
  tradeDuration : Int
  totalInvestment : ℚ
  rMultiple : Option ℚ
deriving DecidableEq, Repr

/-- Body of the `trades.map` callback in `deriveTrades`.  `null` values of the
    source (`riskReward`, `rr`, `rMultiple`) are `none`. -/
def deriveTrade (trade : Trade) : DerivedTrade :=
  let direction : ℚ := if trade.direction = Direction.Long then 1 else -1
  let grossPl := (trade.exitPrice - trade.entryPrice) * trade.sizeQty * direction
  let netPl := grossPl
  let risk := |trade.entryPrice - trade.stopLoss| * trade.sizeQty
  let reward := |trade.targetPrice - trade.entryPrice| * trade.sizeQty
  let riskReward := if risk > 0 then some (reward / risk) else none
  let rr := riskReward
  let rMultiple := if risk > 0 then some (netPl / risk) else none
  let winLoss : TradeResult :=
    if netPl > 0 then TradeResult.Win
    else if netPl < 0 then TradeResult.Loss else TradeResult.BE
  let tradeDuration := max 0 (timeMinutes trade.exitTime - timeMinutes trade.entryTime)
  let totalInvestment := trade.entryPrice * trade.sizeQty
  let day := (DAY_NAMES.get? (jsGetDay trade.date)).getD ""
  { trade with
    day := day
    risk := risk
    reward := reward
    riskReward := riskReward
    rr := rr
    pl := netPl
    grossPl := grossPl
    netPl := netPl
    winLoss := winLoss
    tradeDuration := tradeDuration
    totalInvestment := totalInvestment
    rMultiple := rMultiple }

/-- `deriveTrades`: one-to-one map over the input list. -/
def deriveTrades (trades : List Trade) : List DerivedTrade :=
  trades.map deriveTrade

/- ===== Summary aggregator (src/app/data/analytics.ts) ===== -/

/-- Point of the equity curve: `{ date, equity }`. -/
structure EquityPoint where
  date : String
  equity : ℚ
deriving DecidableEq, Repr

/-- Comparator key of the equity-curve sort: `` `${date} ${exitTime}` ``. -/
def sortKey (t : DerivedTrade) : String := t.date ++ " " ++ t.exitTime

/-- Insert a trade into a list sorted by `sortKey`, before the first entry
    whose key is not smaller (ties keep the earlier-inserted trade later). -/
def insertByKey (t : DerivedTrade) : List DerivedTrade → List DerivedTrade
  | [] => [t]
  | u :: rest =>
    if strLe (sortKey t) (sortKey u) then t :: u :: rest
    else u :: insertByKey t rest

/-- The stable ascending sort `[...trades].sort((a, b) => keyA.localeCompare(keyB))`
    of `computeEquityCurve`, realised as a stable insertion sort (the comparator
    is a total preorder on keys, so any stable sort produces this list). -/
def sortTrades (trades : List DerivedTrade) : List DerivedTrade :=
  trades.foldr insertByKey []

/-- The running-sum loop of `computeEquityCurve` (`equity += trade.pl`). -/
def equityScan (equity : ℚ) : List DerivedTrade → List EquityPoint
  | [] => []
  | t :: rest =>
    let e := equity + t.pl
    ⟨t.date, e⟩ :: equityScan e rest

/-- `computeEquityCurve`: sort by `(date, exitTime)` key, then cumulative sum
    of `pl` starting at 0. -/
def computeEquityCurve (trades : List DerivedTrade) : List EquityPoint :=
  equityScan 0 (sortTrades trades)

/-- Result record of `computeDrawdown`. -/
structure DrawdownResult where
  drawdownSeries : List ℚ
  maxDrawdown : ℚ
  maxDrawdownPct : Option ℚ
deriving DecidableEq, Repr

/-- The `forEach` loop of `computeDrawdown`, state threaded explicitly:
    running `peak`, current `maxDrawdown`, current `maxDrawdownPct`. -/
def drawdownAux (peak maxDrawdown : ℚ) (maxDrawdownPct : Option ℚ) :
    List EquityPoint → DrawdownResult
  | [] => ⟨[], maxDrawdown, maxDrawdownPct⟩
  | point :: rest =>
    let peak2 := if point.equity > peak then point.equity else peak
    let drawdown := point.equity - peak2
    let maxDrawdown2 := if drawdown < maxDrawdown then drawdown else maxDrawdown
    let maxPct2 :=
      if drawdown < maxDrawdown then
        (if peak2 = 0 then none else some (drawdown / peak2))
      else maxDrawdownPct
    let r := drawdownAux peak2 maxDrawdown2 maxPct2 rest
    ⟨drawdown :: r.drawdownSeries, r.maxDrawdown, r.maxDrawdownPct⟩

/-- `computeDrawdown`: peak starts at 0, maxDrawdown at 0, maxDrawdownPct at null. -/
def computeDrawdown (equityCurve : List EquityPoint) : DrawdownResult :=
  drawdownAux 0 0 none equityCurve

/-- The Summary value object. -/
structure Summary where
  totalTrades : Nat
  wins : Nat
  losses : Nat
  breakeven : Nat
  winRate : ℚ
  totalPl : ℚ
  avgPl : ℚ
  avgWin : ℚ
  avgLoss : ℚ
  profitFactor : Option ℚ
  expectancy : ℚ
  expectancyR : Option ℚ
  avgRR : Option ℚ
  equityCurve : List EquityPoint
  drawdownSeries : List ℚ
  maxDrawdown : ℚ
  maxDrawdownPct : Option ℚ
  maxProfitTrade : ℚ
  maxLossTrade : ℚ
deriving DecidableEq, Repr

/-- `computeSummary`.  JS conditional guards `x ? a : b` on a count become
    `if x ≠ 0`; `Math.max(...list)` / `Math.min(...list)` guarded by
    `trades.length` become a fold over the non-empty list.  The
    `Number.isFinite` filters of the source keep exactly the non-null values
    here, since every rational is finite. -/
def computeSummary (trades : List DerivedTrade) : Summary :=
  let totalTrades := trades.length
  let wins := (trades.filter (fun t => t.pl > 0)).length
  let losses := (trades.filter (fun t => t.pl < 0)).length
  let breakeven := totalTrades - wins - losses
  let totalPl := trades.foldl (fun sum t => sum + t.pl) 0
  let avgPl : ℚ := if totalTrades ≠ 0 then totalPl / totalTrades else 0
  let winsPl := (trades.filter (fun t => t.pl > 0)).map (fun t => t.pl)
  let lossesPl := (trades.filter (fun t => t.pl < 0)).map (fun t => t.pl)
  let avgWin : ℚ :=
    if winsPl.length ≠ 0 then (winsPl.foldl (· + ·) 0) / winsPl.length else 0
  let avgLoss : ℚ :=
    if lossesPl.length ≠ 0 then |(lossesPl.foldl (· + ·) 0) / lossesPl.length| else 0
  let profitFactor : Option ℚ :=
    if lossesPl.length = 0 then none
    else some ((winsPl.foldl (· + ·) 0) / |lossesPl.foldl (· + ·) 0|)
  let winRate : ℚ := if totalTrades ≠ 0 then (wins : ℚ) / totalTrades else 0
  let expectancy := winRate * avgWin - (1 - winRate) * avgLoss
  let rMultiples := trades.filterMap (fun t => t.rMultiple)
  let expectancyR : Option ℚ :=
    if rMultiples.length ≠ 0 then some ((rMultiples.foldl (· + ·) 0) / rMultiples.length)
    else none
  let rrValues := trades.filterMap (fun t => t.rr)
  let avgRR : Option ℚ :=
    if rrValues.length ≠ 0 then some ((rrValues.foldl (· + ·) 0) / rrValues.length)
    else none
  let equityCurve := computeEquityCurve trades
  let dd := computeDrawdown equityCurve
  let maxProfitTrade : ℚ :=
    match trades.map (fun t => t.pl) with
    | [] => 0
    | p :: ps => ps.foldl max p
  let maxLossTrade : ℚ :=
    match trades.map (fun t => t.pl) with
    | [] => 0
    | p :: ps => ps.foldl min p
  { totalTrades := totalTrades
    wins := wins
    losses := losses
    breakeven := breakeven
    winRate := winRate
    totalPl := totalPl
    avgPl := avgPl
    avgWin := avgWin
    avgLoss := avgLoss
    profitFactor := profitFactor
    expectancy := expectancy
    expectancyR := expectancyR
    avgRR := avgRR
    equityCurve := equityCurve
    drawdownSeries := dd.drawdownSeries
    maxDrawdown := dd.maxDrawdown
    maxDrawdownPct := dd.maxDrawdownPct
    maxProfitTrade := maxProfitTrade
    maxLossTrade := maxLossTrade }

/- ===== Group statistics (src/app/data/analytics.ts, groupStats) ===== -/

/-- The reduced per-group record of `groupStats`. -/
structure GroupStat where
  name : String
  trades : Nat
  winRate : ℚ
  totalPl : ℚ
  avgPl : ℚ
  avgRR : Option ℚ
  expectancyR : Option ℚ
  profitFactor : Option ℚ
deriving DecidableEq, Repr

/-- `map.set(key, [...group, trade])` on a JS Map modelled as an association
    list in insertion order: an existing key keeps its position and appends
    the trade, a new key is appended at the end. -/
def mapPush (m : List (String × List DerivedTrade)) (key : String)
    (t : DerivedTrade) : List (String × List DerivedTrade) :=
  match m with
  | [] => [(key, [t])]
  | (k, g) :: rest =>
    if k = key then (k, g ++ [t]) :: rest else (k, g) :: mapPush rest key t

/-- The grouping loop of `groupStats`: the key is `keyFn(trade) || "Unspecified"`
    (the only falsy string is the empty string). -/
def groupTrades (trades : List DerivedTrade) (keyFn : DerivedTrade → String) :
    List (String × List DerivedTrade) :=
  trades.foldl
    (fun m t => mapPush m (if keyFn t = "" then "Unspecified" else keyFn t) t) []

/-- `groupStats`: full Summary per group, packaged per name. -/
def groupStats (trades : List DerivedTrade) (keyFn : DerivedTrade → String) :
    List GroupStat :=
  (groupTrades trades keyFn).map (fun g =>
    let summary := computeSummary g.2
    { name := g.1
      trades := summary.totalTrades
      winRate := summary.winRate
      totalPl := summary.totalPl
      avgPl := summary.avgPl
      avgRR := summary.avgRR
      expectancyR := summary.expectancyR
      profitFactor := summary.profitFactor })

/- ===== CSV import boundary (src/app/dashboard/ClientDashboard.tsx) ===== -/

/-- `normalizeHeader`: lower-case, then strip everything outside `[a-z0-9]`;
    represented as the surviving character codes. -/
def normalizeHeader (value : String) : List Nat :=
  (lowerCodes value).filter (fun n => (48 ≤ n && n ≤ 57) || (97 ≤ n && n ≤ 122))

def REQUIRED_HEADERS : List String :=
  ["Trade ID", "Date", "Instrument", "Market", "Entry Time", "Exit Time",
   "Strategy", "Direction", "Size (Qty.)", "Entry Price", "Exit Price",
   "Stop Loss", "Target Price", "Exit Reason", "Platform"]

/-- JS `Map.set` on an association list: an existing key keeps its insertion
    position and takes the new value, a new key is appended. -/
def mapSet (m : List (List Nat × Nat)) (key : List Nat) (value : Nat) :
    List (List Nat × Nat) :=
  match m with
  | [] => [(key, value)]
  | (k, v) :: rest =>
    if k = key then (k, value) :: rest else (k, v) :: mapSet rest key value

/-- JS `Map.get`. -/
def mapGet (m : List (List Nat × Nat)) (key : List Nat) : Option Nat :=
  match m with
  | [] => none
  | (k, v) :: rest => if k = key then some v else mapGet rest key

/-- `headerRow.forEach((cell, index) => headerMap.set(normalizeHeader(cell), index))`. -/
def buildHeaderMap (headerRow : List String) : List (List Nat × Nat) :=
  headerRow.enum.foldl (fun m p => mapSet m (normalizeHeader p.2) p.1) []

/-- `getCell`: header looked up through the normalized header map; a missing
    header or a short row yields the empty string (`row[index] ?? ""`). -/
def getCell (headerMap : List (List Nat × Nat)) (row : List String)
    (header : String) : String :=
  match mapGet headerMap (normalizeHeader header) with
  | none => ""
  | some index => (row.get? index).getD ""

/-- `parseNumber`: strip commas, trim; the empty string is null; otherwise
    JS `Number(cleaned)` with non-finite results mapped to null.  `Number` is
    modelled on plain decimal numerals (optional sign, digits, optional
    fractional part); every other string is rejected like the NaN case of the
    source. -/
def parseDecimalCore (l : List Char) : Option ℚ :=
  let intPart := l.takeWhile isDigitChar
  let rest := l.dropWhile isDigitChar
  match rest with
  | [] => if intPart.isEmpty then none else some (digitsVal intPart : ℚ)
  | c :: frac =>
    if c = '.' then
      if frac.all isDigitChar && !(intPart.isEmpty && frac.isEmpty) then
        some ((digitsVal intPart : ℚ) + (digitsVal frac : ℚ) / (10 ^ frac.length : ℚ))
      else none
    else none

def parseDecimal (l : List Char) : Option ℚ :=
  match l with
  | '-' :: rest => (parseDecimalCore rest).map (fun q => -q)
  | '+' :: rest => parseDecimalCore rest
  | _ => parseDecimalCore l

def parseNumber (value : String) : Option ℚ :=
  let cleaned := trimChars (value.data.filter (fun c => c ≠ ','))
  if cleaned.isEmpty then none else parseDecimal cleaned

/-- `normalizeDate`: the empty trimmed string is rejected; a
    `\d{4}-\d{2}-\d{2}` string passes through.  The `new Date(trimmed)`
    fallback of the source is JS-runtime dependent free-text parsing and is
    modelled as rejection (no claim exercises it). -/
def isDateShape : List Char → Bool
  | [y1, y2, y3, y4, s1, m1, m2, s2, d1, d2] =>
    isDigitChar y1 && isDigitChar y2 && isDigitChar y3 && isDigitChar y4 &&
    s1 = '-' && isDigitChar m1 && isDigitChar m2 &&
    s2 = '-' && isDigitChar d1 && isDigitChar d2
  | _ => false

def normalizeDate (value : String) : String :=
  let trimmed := trimChars value.data
  if trimmed.isEmpty then ""
  else if isDateShape trimmed then ⟨trimmed⟩ else ""

/-- JS `String.prototype.split(":")`. -/
def splitOnColon : List Char → List (List Char)
  | [] => [[]]
  | c :: rest =>
    let r := splitOnColon rest
    if c = ':' then [] :: r
    else
      match r with
      | [] => [[c]]
      | h :: t => (c :: h) :: t

/-- JS `String.prototype.padStart(2, "0")`. -/
def padStart2 (l : List Char) : List Char :=
  if l.length ≥ 2 then l else List.replicate (2 - l.length) '0' ++ l

/-- `normalizeTime`: empty is rejected, fewer than two `:`-separated parts is
    rejected, otherwise the first two parts are zero-padded and joined. -/
def normalizeTime (value : String) : String :=
  let trimmed := trimChars value.data
  if trimmed.isEmpty then ""
  else
    match splitOnColon trimmed with
    | p0 :: p1 :: _ => ⟨padStart2 p0 ++ ':' :: padStart2 p1⟩
    | _ => ""

/-- `directionRaw.includes("short")` on the lower-cased direction cell. -/
def containsShort (s : String) : Bool :=
  codesContain (lowerCodes s) ("short".data.map Char.toNat)

/-- The body of the `rows.slice(1).forEach` import loop for one data row:
    `none` when the row is skipped (a required value is missing), otherwise
    the trade pushed onto `imported`. -/
def parseRow (headerMap : List (List Nat × Nat)) (importStamp : Nat)
    (index : Nat) (row : List String) : Option Trade :=
  let tradeIdRaw := jsTrim (getCell headerMap row "Trade ID")
  let tradeId :=
    if tradeIdRaw = "" then
      "CSV-" ++ toString importStamp ++ "-" ++ toString (index + 1)
    else tradeIdRaw
  let date := normalizeDate (getCell headerMap row "Date")
  let instrument := jsTrim (getCell headerMap row "Instrument")
  let marketRaw := jsTrim (getCell headerMap row "Market")
  let market := if marketRaw = "" then "Equity" else marketRaw
  let entryTime := normalizeTime (getCell headerMap row "Entry Time")
  let exitTime := normalizeTime (getCell headerMap row "Exit Time")
  let strategyRaw := jsTrim (getCell headerMap row "Strategy")
  let strategy := if strategyRaw = "" then "Unspecified" else strategyRaw
  let direction :=
    if containsShort (getCell headerMap row "Direction") then Direction.Short
    else Direction.Long
  let sizeQty := parseNumber (getCell headerMap row "Size (Qty.)")
  let entryPrice := parseNumber (getCell headerMap row "Entry Price")
  let exitPrice := parseNumber (getCell headerMap row "Exit Price")
  let stopLoss := parseNumber (getCell headerMap row "Stop Loss")
  let targetPrice := parseNumber (getCell headerMap row "Target Price")
  let exitReasonRaw := jsTrim (getCell headerMap row "Exit Reason")
  let exitReason := if exitReasonRaw = "" then "Manual" else exitReasonRaw
  let platformRaw := jsTrim (getCell headerMap row "Platform")
  let platform := if platformRaw = "" then "Web" else platformRaw
  match sizeQty, entryPrice, exitPrice, stopLoss, targetPrice with
  | some sq, some ep, some xp, some sl, some tp =>
    if date = "" ∨ instrument = "" ∨ entryTime = "" ∨ exitTime = "" then none
    else
      some { tradeId := tradeId, date := date, instrument := instrument,
             market := market, entryTime := entryTime, exitTime := exitTime,
             strategy := strategy, direction := direction, sizeQty := sq,
             entryPrice := ep, exitPrice := xp, stopLoss := sl,
             targetPrice := tp, exitReason := exitReason, platform := platform }
  | _, _, _, _, _ => none

/-- The whole `rows.slice(1).forEach` loop: imported trades in row order and
    the skipped-row counter. -/
def processRows (headerMap : List (List Nat × Nat)) (importStamp : Nat) :
    Nat → List (List String) → List Trade × Nat
  | _, [] => ([], 0)
  | index, row :: rest =>
    let r := processRows headerMap importStamp (index + 1) rest
    match parseRow headerMap importStamp index row with
    | some t => (t :: r.1, r.2)
    | none => (r.1, r.2 + 1)

/-- Outcome of `handleImportFile` up to the persistence hand-off. -/
inductive ImportResult
  | noRows
  | missingHeaders (missing : List String)
  | noValidRows (skipped : Nat)
  | imported (trades : List Trade) (skipped : Nat)
deriving DecidableEq, Repr

/-- `handleImportFile` after `parseCsv`: empty input and missing required
    headers abort the whole import; otherwise the per-row loop runs, and an
    empty `imported` list reports "no valid rows". -/
def handleImportRows (importStamp : Nat) : List (List String) → ImportResult
  | [] => ImportResult.noRows
  | headerRow :: dataRows =>
    let headerMap := buildHeaderMap headerRow
    let missing :=
      REQUIRED_HEADERS.filter (fun h => (mapGet headerMap (normalizeHeader h)).isNone)
    if missing.isEmpty then
      let result := processRows headerMap importStamp 0 dataRows
      if result.1.isEmpty then ImportResult.noValidRows result.2
      else ImportResult.imported result.1 result.2
    else ImportResult.missingHeaders missing

/- ===== Persistence-row mapping (fromSupabaseRow) ===== -/

/-- A row of the `trades` table as the dashboard reads it; absent/null columns
    are `none`.  Numeric columns arrive as numbers. -/
structure SupabaseRow where
  trade_id : Option String := none
  date : Option String := none
  instrument : Option String := none
  market : Option String := none
  entry_time : Option String := none
  exit_time : Option String := none
  strategy : Option String := none
  direction : Option String := none
  size_qty : Option ℚ := none
  entry_price : Option ℚ := none
  exit_price : Option ℚ := none
  stop_loss : Option ℚ := none
  target_price : Option ℚ := none
  exit_reason : Option String := none
  platform : Option String := none
  chart_url : Option String := none
deriving DecidableEq, Repr

/-- `timeValue`: a falsy column (null or empty) becomes "00:00", otherwise the
    first five characters. -/
def timeValue (value : Option String) : String :=
  match value with
  | some s => if s = "" then "00:00" else ⟨s.data.take 5⟩
  | none => "00:00"

/-- `fromSupabaseRow`.  `row.direction === "Short" ? "Short" : "Long"`: every
    value other than the exact string "Short" becomes Long. -/
def fromSupabaseRow (row : SupabaseRow) : Trade :=
  { tradeId := row.trade_id.getD ""
    date := row.date.getD ""
    instrument := row.instrument.getD ""
    market := row.market.getD "Equity"
    entryTime := timeValue row.entry_time
    exitTime := timeValue row.exit_time
    strategy := row.strategy.getD "Unspecified"
    direction := if row.direction = some "Short" then Direction.Short else Direction.Long
    sizeQty := row.size_qty.getD 0
    entryPrice := row.entry_price.getD 0
    exitPrice := row.exit_price.getD 0
    stopLoss := row.stop_loss.getD 0
    targetPrice := row.target_price.getD 0
    exitReason := row.exit_reason.getD "Manual"
    platform := row.platform.getD "Web"
    chartUrl :=
      match row.chart_url with
      | some s => if s = "" then none else some s
      | none => none }

/- ===== CSV export (buildCsv) ===== -/

/-- Two-digit zero padding of a value below 100. -/
def pad2 (n : Nat) : String := if n < 10 then "0" ++ toString n else toString n

/-- `Number.prototype.toFixed(2)` on a non-negative value: the numerator of
    hundredths rounded half up, printed with two fractional digits. -/
def toFixed2Core (q : ℚ) : String :=
  let n : Nat := (⌊q * 100 + 1 / 2⌋).toNat
  toString (n / 100) ++ "." ++ pad2 (n % 100)

/-- `value.toFixed(2)`: a negative value is the sign prepended to the
    formatting of its negation (ECMA-262 Number.prototype.toFixed). -/
def toFixed2 (q : ℚ) : String :=
  if q < 0 then "-" ++ toFixed2Core (-q) else toFixed2Core q

def directionStr : Direction → String
  | Direction.Long => "Long"
  | Direction.Short => "Short"

def resultStr : TradeResult → String
  | TradeResult.Win => "Win"
  | TradeResult.Loss => "Loss"
  | TradeResult.BE => "BE"

/-- JS `String(number)` for the raw (unformatted) numeric cells.  An integral
    value prints its integer; the exact digit string of a non-integral double
    is a formatting detail outside the claims, rendered here as the rational's
    standard form. -/
def ratStr (q : ℚ) : String :=
  if q.den = 1 then toString q.num else toString q.num ++ "/" ++ toString q.den

def CSV_HEADERS : List String :=
  ["Trade ID", "Date", "Day", "Instrument", "Market", "Entry Time", "Exit Time",
   "Strategy", "Direction", "Size (Qty.)", "Entry Price", "Exit Price",
   "Stop Loss", "Target Price", "Risk", "Reward", "Risk-Reward", "P/L",
   "Win/Loss", "Exit Reason", "Platform", "R:R", "Trade Duration",
   "Total Investment"]

/-- The cell list of one `buildCsv` row, before CSV quoting.  The source
    guards the two ratio columns with JS truthiness
    (`trade.riskReward ? trade.riskReward.toFixed(2) : ""`), so a null ratio
    and a zero ratio both produce the empty cell. -/
def csvCells (trade : DerivedTrade) : List String :=
  [trade.tradeId,
   trade.date,
   trade.day,
   trade.instrument,
   trade.market,
   trade.entryTime,
   trade.exitTime,
   trade.strategy,
   directionStr trade.direction,
   ratStr trade.sizeQty,
   ratStr trade.entryPrice,
   ratStr trade.exitPrice,
   ratStr trade.stopLoss,
   ratStr trade.targetPrice,
   toFixed2 trade.risk,
   toFixed2 trade.reward,
   (match trade.riskReward with
    | some v => if v = 0 then "" else toFixed2 v
    | none => ""),
   toFixed2 trade.pl,
   resultStr trade.winLoss,
   trade.exitReason,
   trade.platform,
   (match trade.rr with
    | some v => if v = 0 then "" else toFixed2 v
    | none => ""),
   toString trade.tradeDuration,
   toFixed2 trade.totalInvestment]

/-- `toCsvValue`: cells containing a comma, quote or newline are wrapped in
    double quotes with internal quotes doubled. -/
def escapeQuotes (l : List Char) : List Char :=
  l.foldr (fun c acc => if c = '"' then '"' :: '"' :: acc else c :: acc) []

def toCsvValue (raw : String) : String :=
  if raw.data.any (fun c => c = ',' || c = '"' || c = '\n') then
    "\"" ++ String.mk (escapeQuotes raw.data) ++ "\""
  else raw

/-- One serialized row of `buildCsv`. -/
def buildCsvRow (trade : DerivedTrade) : String :=
  String.intercalate "," ((csvCells trade).map toCsvValue)

/-- `buildCsv`: header line followed by one line per derived trade. -/
def buildCsv (derivedTrades : List DerivedTrade) : String :=
  String.intercalate "\n"
    (String.intercalate "," CSV_HEADERS :: derivedTrades.map buildCsvRow)

/- ===== Shared concrete inputs ===== -/

/-- Scenario A of the spec: one Long trade, entry 100, exit 110, qty 10,
    stop 95, target 120. -/
def scenarioATrade : Trade :=
  { tradeId := "T-A", date := "2026-01-06", instrument := "AAPL",
    market := "Equity", entryTime := "09:30", exitTime := "10:30",
    strategy := "Breakout", direction := Direction.Long, sizeQty := 10,
    entryPrice := 100, exitPrice := 110, stopLoss := 95, targetPrice := 120,
    exitReason := "Target Hit", platform := "Web" }

/- ===== Claims ===== -/

/-- C1: for every input trade, `deriveTrades` computes
    `pl = (exitPrice - entryPrice) * sizeQty * directionMultiplier` with
    multiplier +1 for Long and -1 for Short,
    `risk = |entryPrice - stopLoss| * sizeQty`,
    `reward = |targetPrice - entryPrice| * sizeQty`, and
    `riskReward = reward / risk` when `risk > 0`. -/
theorem c1_derive_formulas (t : Trade) :
    (deriveTrade t).pl =
      (t.exitPrice - t.entryPrice) * t.sizeQty *
        (if t.direction = Direction.Long then 1 else -1) ∧
    (deriveTrade t).risk = |t.entryPrice - t.stopLoss| * t.sizeQty ∧
    (deriveTrade t).reward = |t.targetPrice - t.entryPrice| * t.sizeQty ∧
    ((deriveTrade t).risk > 0 →
      (deriveTrade t).riskReward = some ((deriveTrade t).reward / (deriveTrade t).risk)) := by
  refine ⟨rfl, rfl, rfl, fun h => ?_⟩
  have h2 : |t.entryPrice - t.stopLoss| * t.sizeQty > 0 := h
  show (if |t.entryPrice - t.stopLoss| * t.sizeQty > 0 then
          some (|t.targetPrice - t.entryPrice| * t.sizeQty /
            (|t.entryPrice - t.stopLoss| * t.sizeQty))
        else none) = _
  rw [if_pos h2]
  rfl

/-- C1 witness: Scenario A — entry 100, exit 110, qty 10, stop 95, target 120
    yields pl = 100, risk = 50, reward = 200, riskReward = 4, winLoss = Win. -/
theorem c1_derive_formulas_witness :
    (deriveTrade scenarioATrade).pl = 100 ∧
    (deriveTrade scenarioATrade).risk = 50 ∧
    (deriveTrade scenarioATrade).reward = 200 ∧
    (deriveTrade scenarioATrade).riskReward = some 4 ∧
    (deriveTrade scenarioATrade).winLoss = TradeResult.Win := by
  have h := c1_derive_formulas scenarioATrade
  have hrisk : (deriveTrade scenarioATrade).risk = 50 := by
    rw [h.2.1]; norm_num [scenarioATrade]
  have hreward : (deriveTrade scenarioATrade).reward = 200 := by
    rw [h.2.2.1]; norm_num [scenarioATrade]
  have hpl : (deriveTrade scenarioATrade).pl = 100 := by
    rw [h.1]; norm_num [scenarioATrade]
  have hrr := h.2.2.2 (by rw [hrisk]; norm_num)
  refine ⟨hpl, hrisk, hreward, ?_, ?_⟩
  · rw [hrr, hrisk, hreward]; norm_num
  · norm_num [deriveTrade, scenarioATrade]

/-- C2: for every trade produced by `deriveTrades`, `winLoss` is Win iff
    `pl > 0`, Loss iff `pl < 0` and BE iff `pl = 0`, by strict sign comparison
    with no epsilon tolerance. -/
theorem c2_winloss_sign (t : Trade) :
    ((deriveTrade t).winLoss = TradeResult.Win ↔ (deriveTrade t).pl > 0) ∧
    ((deriveTrade t).winLoss = TradeResult.Loss ↔ (deriveTrade t).pl < 0) ∧
    ((deriveTrade t).winLoss = TradeResult.BE ↔ (deriveTrade t).pl = 0) := by
  have hwl : (deriveTrade t).winLoss =
      (if (deriveTrade t).pl > 0 then TradeResult.Win
       else if (deriveTrade t).pl < 0 then TradeResult.Loss else TradeResult.BE) := rfl
  rw [hwl]
  rcases lt_trichotomy ((deriveTrade t).pl) 0 with h | h | h
  · simp [h, not_lt.mpr (le_of_lt h), ne_of_lt h]
  · simp [h]
  · simp [h, not_lt.mpr (le_of_lt h), ne_of_gt h, lt_asymm h]

/-- C4: Scenario C — the empty trade list summarizes without error to
    totalTrades = 0, winRate = 0, profitFactor = null, equityCurve = [],
    maxProfitTrade = 0 and maxLossTrade = 0 (`computeSummary` is a total
    function, so no error can be raised). -/
theorem c4_empty_summary :
    (computeSummary []).totalTrades = 0 ∧
    (computeSummary []).winRate = 0 ∧
    (computeSummary []).profitFactor = none ∧
    (computeSummary []).equityCurve = [] ∧
    (computeSummary []).maxProfitTrade = 0 ∧
    (computeSummary []).maxLossTrade = 0 :=
  ⟨rfl, rfl, rfl, rfl, rfl, rfl⟩

/-- A trade whose stop equals its entry, so the derived risk is 0. -/
def zeroRiskTrade : Trade :=
  { tradeId := "T-Z", date := "2026-01-07", instrument := "NIFTY",
    market := "F&O", entryTime := "09:30", exitTime := "10:30",
    strategy := "Scalp", direction := Direction.Long, sizeQty := 5,
    entryPrice := 100, exitPrice := 104, stopLoss := 100, targetPrice := 108,
    exitReason := "Manual", platform := "Web" }

/-- C3: undefined ratios are null, not zero and not an error: a derived trade
    with risk = 0 carries null riskReward and rMultiple; a summary over derived
    trades that all have risk = 0 carries null avgRR and expectancyR; and the
    summary's profitFactor is null exactly when there are zero losing trades. -/
theorem c3_null_propagation (t : Trade) (trades : List Trade)
    (derived : List DerivedTrade) :
    ((deriveTrade t).risk = 0 →
      (deriveTrade t).riskReward = none ∧ (deriveTrade t).rMultiple = none) ∧
    ((∀ u ∈ trades, (deriveTrade u).risk = 0) →
      (computeSummary (deriveTrades trades)).avgRR = none ∧
      (computeSummary (deriveTrades trades)).expectancyR = none) ∧
    ((computeSummary derived).profitFactor = none ↔
      (derived.filter (fun u => u.pl < 0)).length = 0) := by
  refine ⟨fun h => ?_, fun h => ?_, ?_⟩
  · have h2 : ¬ (|t.entryPrice - t.stopLoss| * t.sizeQty > 0) := by
      have h3 : |t.entryPrice - t.stopLoss| * t.sizeQty = 0 := h
      rw [h3]; exact lt_irrefl 0
    constructor
    · show (if |t.entryPrice - t.stopLoss| * t.sizeQty > 0 then _ else none) = none
      rw [if_neg h2]
    · show (if |t.entryPrice - t.stopLoss| * t.sizeQty > 0 then _ else none) = none
      rw [if_neg h2]
  · have hrr : (deriveTrades trades).filterMap (fun t => t.rr) = [] := by
      rw [List.filterMap_eq_nil_iff]
      intro d hd
      rw [deriveTrades, List.mem_map] at hd
      obtain ⟨u, hu, rfl⟩ := hd
      have h2 : ¬ (|u.entryPrice - u.stopLoss| * u.sizeQty > 0) := by
        have h3 : |u.entryPrice - u.stopLoss| * u.sizeQty = 0 := h u hu
        rw [h3]; exact lt_irrefl 0
      show (if |u.entryPrice - u.stopLoss| * u.sizeQty > 0 then _ else none) = none
      rw [if_neg h2]
    have hrm : (deriveTrades trades).filterMap (fun t => t.rMultiple) = [] := by
      rw [List.filterMap_eq_nil_iff]
      intro d hd
      rw [deriveTrades, List.mem_map] at hd
      obtain ⟨u, hu, rfl⟩ := hd
      have h2 : ¬ (|u.entryPrice - u.stopLoss| * u.sizeQty > 0) := by
        have h3 : |u.entryPrice - u.stopLoss| * u.sizeQty = 0 := h u hu
        rw [h3]; exact lt_irrefl 0
      show (if |u.entryPrice - u.stopLoss| * u.sizeQty > 0 then _ else none) = none
      rw [if_neg h2]
    constructor
    · show (if ((deriveTrades trades).filterMap (fun t => t.rr)).length ≠ 0
            then _ else none) = none
      rw [hrr]; simp
    · show (if ((deriveTrades trades).filterMap (fun t => t.rMultiple)).length ≠ 0
            then _ else none) = none
      rw [hrm]; simp
  · have hpf : (computeSummary derived).profitFactor =
        (if ((derived.filter (fun t => decide (t.pl < 0))).map (fun t => t.pl)).length = 0
         then none
         else some
           (((derived.filter (fun t => decide (t.pl > 0))).map (fun t => t.pl)).foldl (· + ·) 0 /
            |((derived.filter (fun t => decide (t.pl < 0))).map (fun t => t.pl)).foldl (· + ·) 0|)) := rfl
    rw [hpf, List.length_map]
    by_cases h : (derived.filter (fun u => decide (u.pl < 0))).length = 0
    · simp [h]
    · simp [h]

/-- C3 witness: a zero-risk trade gets null ratios; the summary of the
    singleton all-zero-risk set has null avgRR and expectancyR; the summary of
    the loss-free Scenario A set has null profitFactor. -/
theorem c3_null_propagation_witness :
    ((deriveTrade zeroRiskTrade).riskReward = none ∧
      (deriveTrade zeroRiskTrade).rMultiple = none) ∧
    ((computeSummary (deriveTrades [zeroRiskTrade])).avgRR = none ∧
      (computeSummary (deriveTrades [zeroRiskTrade])).expectancyR = none) ∧
    (computeSummary [deriveTrade scenarioATrade]).profitFactor = none := by
  have h := c3_null_propagation zeroRiskTrade [zeroRiskTrade] [deriveTrade scenarioATrade]
  refine ⟨h.1 ?_, h.2.1 ?_, (h.2.2).mpr ?_⟩
  · norm_num [deriveTrade, zeroRiskTrade]
  · intro u hu
    rw [List.mem_singleton] at hu
    rw [hu]
    norm_num [deriveTrade, zeroRiskTrade]
  · norm_num [deriveTrade, scenarioATrade, List.filter]

/- ===== Lemmas for the equity curve (C5) ===== -/

theorem insertByKey_perm (t : DerivedTrade) (l : List DerivedTrade) :
    (insertByKey t l).Perm (t :: l) := by
  induction l with
  | nil => exact List.Perm.refl _
  | cons u rest ih =>
    rw [insertByKey]
    by_cases h : strLe (sortKey t) (sortKey u)
    · rw [if_pos h]
    · rw [if_neg h]
      exact (ih.cons u).trans (List.Perm.swap t u rest)

theorem sortTrades_perm (l : List DerivedTrade) : (sortTrades l).Perm l := by
  induction l with
  | nil => exact List.Perm.refl _
  | cons t rest ih =>
    have h : sortTrades (t :: rest) = insertByKey t (sortTrades rest) := rfl
    rw [h]
    exact (insertByKey_perm t (sortTrades rest)).trans (ih.cons t)

theorem equityScan_getLast (l : List DerivedTrade) :
    ∀ e : ℚ, l ≠ [] →
      ((equityScan e l).getLast?).map EquityPoint.equity =
        some (e + (l.map (fun t => t.pl)).sum) := by
  induction l with
  | nil => intro e h; exact absurd rfl h
  | cons t rest ih =>
    intro e _
    match rest, ih with
    | [], _ => simp [equityScan]
    | u :: rest2, ih =>
      have hrec := ih (e + t.pl) (List.cons_ne_nil u rest2)
      rw [equityScan]
      show ((⟨t.date, e + t.pl⟩ :: equityScan (e + t.pl) (u :: rest2)).getLast?).map
        EquityPoint.equity = _
      have hshape : equityScan (e + t.pl) (u :: rest2) =
          ⟨u.date, e + t.pl + u.pl⟩ :: equityScan (e + t.pl + u.pl) rest2 := rfl
      rw [hshape, List.getLast?_cons_cons, ← hshape, hrec]
      congr 1
      simp [add_assoc]

theorem foldl_add_pl (l : List DerivedTrade) :
    ∀ a : ℚ, l.foldl (fun s t => s + t.pl) a = a + (l.map (fun t => t.pl)).sum := by
  induction l with
  | nil => intro a; simp
  | cons t rest ih =>
    intro a
    rw [List.foldl_cons, ih (a + t.pl), List.map_cons, List.sum_cons, add_assoc]

/-- C5: for every non-empty list of derived trades, the equity of the final
    point of the Summary's equity curve equals the Summary's totalPl: the
    cumulative sum over the sorted order ends at the order-independent sum
    of pl. -/
theorem c5_equity_final (trades : List DerivedTrade) (h : trades ≠ []) :
    ((computeSummary trades).equityCurve.getLast?).map EquityPoint.equity =
      some ((computeSummary trades).totalPl) := by
  have hec : (computeSummary trades).equityCurve = equityScan 0 (sortTrades trades) := rfl
  have htp : (computeSummary trades).totalPl = trades.foldl (fun s t => s + t.pl) 0 := rfl
  have hsne : sortTrades trades ≠ [] := by
    intro hnil
    have hlen := (sortTrades_perm trades).length_eq
    rw [hnil] at hlen
    exact h (List.length_eq_zero.mp hlen.symm)
  rw [hec, htp, equityScan_getLast _ 0 hsne, foldl_add_pl trades 0]
  congr 2
  exact ((sortTrades_perm trades).map (fun t => t.pl)).sum_eq

/-- C5 witness: the singleton Scenario A set is non-empty and its equity curve
    ends at its totalPl. -/
theorem c5_equity_final_witness :
    ([deriveTrade scenarioATrade] : List DerivedTrade) ≠ [] ∧
    ((computeSummary [deriveTrade scenarioATrade]).equityCurve.getLast?).map
        EquityPoint.equity =
      some ((computeSummary [deriveTrade scenarioATrade]).totalPl) :=
  ⟨List.cons_ne_nil _ _,
   c5_equity_final [deriveTrade scenarioATrade] (List.cons_ne_nil _ _)⟩

/- ===== Lemmas for the drawdown computation (C6) ===== -/

/-- The running peak of `computeDrawdown`: the maximum of the start value and
    every equity value seen so far (peak updated before the point's drawdown
    is taken). -/
def peaksFrom (peak : ℚ) : List ℚ → List ℚ
  | [] => []
  | e :: rest =>
    let p := if e > peak then e else peak
    p :: peaksFrom p rest

theorem drawdownAux_series (ec : List EquityPoint) :
    ∀ (peak m : ℚ) (pct : Option ℚ),
      (drawdownAux peak m pct ec).drawdownSeries =
        List.zipWith (fun e p => e - p) (ec.map EquityPoint.equity)
          (peaksFrom peak (ec.map EquityPoint.equity)) := by
  induction ec with
  | nil => intro peak m pct; rfl
  | cons point rest ih =>
    intro peak m pct
    rw [drawdownAux, List.map_cons, peaksFrom, List.zipWith]
    simp only
    rw [ih]

theorem drawdownAux_nonpos (ec : List EquityPoint) :
    ∀ (peak m : ℚ) (pct : Option ℚ),
      ∀ x ∈ (drawdownAux peak m pct ec).drawdownSeries, x ≤ 0 := by
  induction ec with
  | nil => intro peak m pct x hx; exact absurd hx (List.not_mem_nil x)
  | cons point rest ih =>
    intro peak m pct x hx
    rw [drawdownAux] at hx
    simp only [List.mem_cons] at hx
    rcases hx with hx | hx
    · rw [hx]
      by_cases h : point.equity > peak
      · rw [if_pos h]; simp
      · rw [if_neg h]
        have h2 : point.equity ≤ peak := not_lt.mp h
        linarith
    · exact ih _ _ _ x hx

theorem drawdownAux_maxDD (ec : List EquityPoint) :
    ∀ (peak m : ℚ) (pct : Option ℚ),
      (drawdownAux peak m pct ec).maxDrawdown =
        (drawdownAux peak m pct ec).drawdownSeries.foldl min m := by
  induction ec with
  | nil => intro peak m pct; rfl
  | cons point rest ih =>
    intro peak m pct
    rw [drawdownAux]
    simp only [List.foldl_cons]
    by_cases h : point.equity - (if point.equity > peak then point.equity else peak) < m
    · rw [if_pos h, if_pos h, ih]
      congr 1
      exact (min_eq_right (le_of_lt h)).symm
    · rw [if_neg h, if_neg h, ih]
      congr 1
      exact (min_eq_left (not_lt.mp h)).symm

theorem drawdownAux_pct (ec : List EquityPoint) :
    ∀ (peak m : ℚ) (pct : Option ℚ),
      (drawdownAux peak m pct ec).maxDrawdown ≤ m ∧
      ((drawdownAux peak m pct ec).maxDrawdown = m →
        (drawdownAux peak m pct ec).maxDrawdownPct = pct) ∧
      ((drawdownAux peak m pct ec).maxDrawdown < m →
        ∃ i p,
          (drawdownAux peak m pct ec).drawdownSeries.get? i =
            some (drawdownAux peak m pct ec).maxDrawdown ∧
          (peaksFrom peak (ec.map EquityPoint.equity)).get? i = some p ∧
          (drawdownAux peak m pct ec).maxDrawdownPct =
            (if p = 0 then none
             else some ((drawdownAux peak m pct ec).maxDrawdown / p))) := by
  induction ec with
  | nil =>
    intro peak m pct
    exact ⟨le_refl m, fun _ => rfl, fun h => absurd h (lt_irrefl m)⟩
  | cons point rest ih =>
    intro peak m pct
    by_cases hlt : point.equity - (if point.equity > peak then point.equity else peak) < m
    · have hstep : drawdownAux peak m pct (point :: rest) =
          ⟨(point.equity - (if point.equity > peak then point.equity else peak)) ::
            (drawdownAux (if point.equity > peak then point.equity else peak)
              (point.equity - (if point.equity > peak then point.equity else peak))
              (if (if point.equity > peak then point.equity else peak) = 0 then none
               else some ((point.equity - (if point.equity > peak then point.equity else peak)) /
                 (if point.equity > peak then point.equity else peak))) rest).drawdownSeries,
           (drawdownAux (if point.equity > peak then point.equity else peak)
              (point.equity - (if point.equity > peak then point.equity else peak))
              (if (if point.equity > peak then point.equity else peak) = 0 then none
               else some ((point.equity - (if point.equity > peak then point.equity else peak)) /
                 (if point.equity > peak then point.equity else peak))) rest).maxDrawdown,
           (drawdownAux (if point.equity > peak then point.equity else peak)
              (point.equity - (if point.equity > peak then point.equity else peak))
              (if (if point.equity > peak then point.equity else peak) = 0 then none
               else some ((point.equity - (if point.equity > peak then point.equity else peak)) /
                 (if point.equity > peak then point.equity else peak))) rest).maxDrawdownPct⟩ := by
        rw [drawdownAux]
        simp only [if_pos hlt]
      obtain ⟨ihle, iheq, ihlt⟩ := ih (if point.equity > peak then point.equity else peak)
        (point.equity - (if point.equity > peak then point.equity else peak))
        (if (if point.equity > peak then point.equity else peak) = 0 then none
         else some ((point.equity - (if point.equity > peak then point.equity else peak)) /
           (if point.equity > peak then point.equity else peak)))
      rw [hstep]
      dsimp only
      refine ⟨le_trans ihle (le_of_lt hlt), ?_, ?_⟩
      · intro he
        exact absurd (lt_of_le_of_lt (he ▸ ihle) hlt) (lt_irrefl m)
      · intro _
        rcases lt_or_eq_of_le ihle with hlt2 | heq
        · obtain ⟨i, p, h1, h2, h3⟩ := ihlt hlt2
          refine ⟨i + 1, p, ?_, ?_, h3⟩
          · rw [List.get?_cons_succ]; exact h1
          · rw [List.map_cons, peaksFrom, List.get?_cons_succ]
            exact h2
        · refine ⟨0, (if point.equity > peak then point.equity else peak), ?_, ?_, ?_⟩
          · rw [List.get?_cons_zero, heq]
          · rw [List.map_cons, peaksFrom]
            rfl
          · rw [iheq heq, heq]
    · have hstep : drawdownAux peak m pct (point :: rest) =
          ⟨(point.equity - (if point.equity > peak then point.equity else peak)) ::
            (drawdownAux (if point.equity > peak then point.equity else peak)
              m pct rest).drawdownSeries,
           (drawdownAux (if point.equity > peak then point.equity else peak)
              m pct rest).maxDrawdown,
           (drawdownAux (if point.equity > peak then point.equity else peak)
              m pct rest).maxDrawdownPct⟩ := by
        rw [drawdownAux]
        simp only [if_neg hlt]
      obtain ⟨ihle, iheq, ihlt⟩ := ih (if point.equity > peak then point.equity else peak) m pct
      rw [hstep]
      dsimp only
      refine ⟨ihle, iheq, ?_⟩
      intro hm
      obtain ⟨i, p, h1, h2, h3⟩ := ihlt hm
      refine ⟨i + 1, p, ?_, ?_, h3⟩
      · rw [List.get?_cons_succ]; exact h1
      · rw [List.map_cons, peaksFrom, List.get?_cons_succ]
        exact h2

/-- C6: the drawdown computation tracks a running peak initialized to 0 (not
    the first trade's equity): every point of the series is the equity minus
    the running peak, every value is ≤ 0, maxDrawdown is the most negative
    value seen (the minimum of the series and the initial 0), and
    maxDrawdownPct is maxDrawdown divided by the peak at the point where it
    was recorded, null when that peak is 0 (and null when no drawdown ever
    occurred). -/
theorem c6_drawdown (equityCurve : List EquityPoint) :
    (computeDrawdown equityCurve).drawdownSeries =
      List.zipWith (fun e p => e - p) (equityCurve.map EquityPoint.equity)
        (peaksFrom 0 (equityCurve.map EquityPoint.equity)) ∧
    (∀ x ∈ (computeDrawdown equityCurve).drawdownSeries, x ≤ 0) ∧
    (computeDrawdown equityCurve).maxDrawdown =
      (computeDrawdown equityCurve).drawdownSeries.foldl min 0 ∧
    ((computeDrawdown equityCurve).maxDrawdown = 0 →
      (computeDrawdown equityCurve).maxDrawdownPct = none) ∧
    ((computeDrawdown equityCurve).maxDrawdown < 0 →
      ∃ i p,
        (computeDrawdown equityCurve).drawdownSeries.get? i =
          some (computeDrawdown equityCurve).maxDrawdown ∧
        (peaksFrom 0 (equityCurve.map EquityPoint.equity)).get? i = some p ∧
        (computeDrawdown equityCurve).maxDrawdownPct =
          (if p = 0 then none
           else some ((computeDrawdown equityCurve).maxDrawdown / p))) := by
  obtain ⟨hle, heq, hlt⟩ := drawdownAux_pct equityCurve 0 0 none
  exact ⟨drawdownAux_series equityCurve 0 0 none,
         drawdownAux_nonpos equityCurve 0 0 none,
         drawdownAux_maxDD equityCurve 0 0 none, heq, hlt⟩

/-- Scenario D, first trade: Long 10 @ 100 exited 110 on 2026-01-07, pl +100. -/
def scenarioDTradeA : Trade :=
  { tradeId := "T-D1", date := "2026-01-07", instrument := "AAPL",
    market := "Equity", entryTime := "09:30", exitTime := "10:00",
    strategy := "Breakout", direction := Direction.Long, sizeQty := 10,
    entryPrice := 100, exitPrice := 110, stopLoss := 95, targetPrice := 120,
    exitReason := "Target Hit", platform := "Web" }

/-- Scenario D, second trade: Long 10 @ 100 exited 85 later the same day,
    pl -150. -/
def scenarioDTradeB : Trade :=
  { tradeId := "T-D2", date := "2026-01-07", instrument := "AAPL",
    market := "Equity", entryTime := "10:30", exitTime := "11:00",
    strategy := "Breakout", direction := Direction.Long, sizeQty := 10,
    entryPrice := 100, exitPrice := 85, stopLoss := 95, targetPrice := 120,
    exitReason := "Stop Hit", platform := "Web" }

/-- C6 witness: Scenario D — two same-day trades with pl +100 then -150 give
    the equity curve [100, -50], drawdown series [0, -150], maxDrawdown -150
    and maxDrawdownPct -150/100 = -3/2, recorded at peak 100. -/
theorem c6_drawdown_witness :
    computeEquityCurve [deriveTrade scenarioDTradeA, deriveTrade scenarioDTradeB] =
      [⟨"2026-01-07", 100⟩, ⟨"2026-01-07", -50⟩] ∧
    (computeDrawdown [(⟨"2026-01-07", 100⟩ : EquityPoint), ⟨"2026-01-07", -50⟩]).drawdownSeries =
      [0, -150] ∧
    (computeDrawdown [(⟨"2026-01-07", 100⟩ : EquityPoint), ⟨"2026-01-07", -50⟩]).maxDrawdown =
      -150 ∧
    (computeDrawdown [(⟨"2026-01-07", 100⟩ : EquityPoint), ⟨"2026-01-07", -50⟩]).maxDrawdownPct =
      some (-(3 / 2)) ∧
    (∃ i p,
      (computeDrawdown [(⟨"2026-01-07", 100⟩ : EquityPoint), ⟨"2026-01-07", -50⟩]).drawdownSeries.get? i =
        some (computeDrawdown [(⟨"2026-01-07", 100⟩ : EquityPoint), ⟨"2026-01-07", -50⟩]).maxDrawdown ∧
      (peaksFrom 0 (([(⟨"2026-01-07", 100⟩ : EquityPoint), ⟨"2026-01-07", -50⟩]).map EquityPoint.equity)).get? i =
        some p ∧
      (computeDrawdown [(⟨"2026-01-07", 100⟩ : EquityPoint), ⟨"2026-01-07", -50⟩]).maxDrawdownPct =
        (if p = 0 then none
         else some ((computeDrawdown [(⟨"2026-01-07", 100⟩ : EquityPoint), ⟨"2026-01-07", -50⟩]).maxDrawdown / p))) := by
  have hcurve : computeEquityCurve [deriveTrade scenarioDTradeA, deriveTrade scenarioDTradeB] =
      [⟨"2026-01-07", 100⟩, ⟨"2026-01-07", -50⟩] := by
    have hsort : sortTrades [deriveTrade scenarioDTradeA, deriveTrade scenarioDTradeB] =
        [deriveTrade scenarioDTradeA, deriveTrade scenarioDTradeB] := by
      show insertByKey (deriveTrade scenarioDTradeA)
        (insertByKey (deriveTrade scenarioDTradeB) []) = _
      rw [insertByKey, insertByKey, if_pos]
      show strLe _ _ = true
      decide
    show equityScan 0 (sortTrades [deriveTrade scenarioDTradeA, deriveTrade scenarioDTradeB]) = _
    rw [hsort]
    show [(⟨(deriveTrade scenarioDTradeA).date, 0 + (deriveTrade scenarioDTradeA).pl⟩ : EquityPoint),
          ⟨(deriveTrade scenarioDTradeB).date,
            0 + (deriveTrade scenarioDTradeA).pl + (deriveTrade scenarioDTradeB).pl⟩] = _
    have hA : (deriveTrade scenarioDTradeA).pl = 100 := by
      norm_num [deriveTrade, scenarioDTradeA]
    have hB : (deriveTrade scenarioDTradeB).pl = -150 := by
      norm_num [deriveTrade, scenarioDTradeB]
    rw [hA, hB]
    norm_num
    constructor <;> rfl
  have hdd : (computeDrawdown [(⟨"2026-01-07", 100⟩ : EquityPoint), ⟨"2026-01-07", -50⟩]).maxDrawdown =
      -150 := by
    norm_num [computeDrawdown, drawdownAux]
  have hseries : (computeDrawdown [(⟨"2026-01-07", 100⟩ : EquityPoint), ⟨"2026-01-07", -50⟩]).drawdownSeries =
      [0, -150] := by
    norm_num [computeDrawdown, drawdownAux]
  have hpct : (computeDrawdown [(⟨"2026-01-07", 100⟩ : EquityPoint), ⟨"2026-01-07", -50⟩]).maxDrawdownPct =
      some (-(3 / 2)) := by
    norm_num [computeDrawdown, drawdownAux]
  refine ⟨hcurve, hseries, hdd, hpct, ?_⟩
  exact (c6_drawdown [(⟨"2026-01-07", 100⟩ : EquityPoint), ⟨"2026-01-07", -50⟩]).2.2.2.2
    (by rw [hdd]; norm_num)

/- ===== C7: direction handling at the input boundary ===== -/

/-- A CSV data row (REQUIRED_HEADERS order) whose Direction cell is neither
    Long nor Short. -/
def unrecognizedDirectionRow : List String :=
  ["T-X", "2026-01-06", "AAPL", "Equity", "09:30", "10:30", "Breakout",
   "Banana", "10", "100", "110", "95", "120", "Target Hit", "Web"]

/-- The trade the import loop builds from `unrecognizedDirectionRow`. -/
def bananaTrade : Trade :=
  { tradeId := "T-X", date := "2026-01-06", instrument := "AAPL",
    market := "Equity", entryTime := "09:30", exitTime := "10:30",
    strategy := "Breakout", direction := Direction.Long, sizeQty := 10,
    entryPrice := 100, exitPrice := 110, stopLoss := 95, targetPrice := 120,
    exitReason := "Target Hit", platform := "Web" }

/-- C7 counterexample: a CSV row whose Direction cell is "Banana" is imported
    (not refused) and assigned direction Long, and a persistence row whose
    direction column is "Sideways" is mapped (not refused) to a trade with
    direction Long. -/
theorem c7_direction_counterexample :
    (parseRow (buildHeaderMap REQUIRED_HEADERS) 0 0 unrecognizedDirectionRow).isSome = true ∧
    (parseRow (buildHeaderMap REQUIRED_HEADERS) 0 0 unrecognizedDirectionRow).map
      Trade.direction = some Direction.Long ∧
    (fromSupabaseRow { direction := some "Sideways" }).direction = Direction.Long := by
  refine ⟨?_, ?_, ?_⟩ <;> decide

/-- C7 amended: unrecognized direction values are not rejected at the input
    boundary but silently defaulted — the CSV import assigns Short exactly
    when the lower-cased Direction cell contains "short" and Long otherwise,
    and the persistence-row mapping assigns Short exactly for the value
    "Short" and Long otherwise. -/
theorem c7_direction_default (headerMap : List (List Nat × Nat))
    (importStamp index : Nat) (row : List String) (tr : Trade)
    (srow : SupabaseRow)
    (h : parseRow headerMap importStamp index row = some tr) :
    tr.direction =
      (if containsShort (getCell headerMap row "Direction") then Direction.Short
       else Direction.Long) ∧
    (fromSupabaseRow srow).direction =
      (if srow.direction = some "Short" then Direction.Short else Direction.Long) := by
  refine ⟨?_, rfl⟩
  rw [parseRow] at h
  split at h
  · split at h
    · exact absurd h (by simp)
    · injection h with h2
      rw [← h2]
  · exact absurd h (by simp)

/-- C7 witness: the amended rule evaluated on the "Banana" CSV row and the
    "Sideways" persistence row, both of which come out as Long. -/
theorem c7_direction_default_witness :
    parseRow (buildHeaderMap REQUIRED_HEADERS) 0 0 unrecognizedDirectionRow =
      some bananaTrade ∧
    bananaTrade.direction = Direction.Long ∧
    (fromSupabaseRow { direction := some "Sideways" }).direction = Direction.Long := by
  have hp : parseRow (buildHeaderMap REQUIRED_HEADERS) 0 0 unrecognizedDirectionRow =
      some bananaTrade := by decide
  have h := c7_direction_default (buildHeaderMap REQUIRED_HEADERS) 0 0
    unrecognizedDirectionRow bananaTrade { direction := some "Sideways" } hp
  refine ⟨hp, ?_, ?_⟩
  · rw [h.1]; decide
  · rw [h.2]; decide

/- ===== C8: per-row error handling of the CSV import ===== -/

theorem processRows_spec (headerMap : List (List Nat × Nat)) (importStamp : Nat) :
    ∀ (start : Nat) (rows : List (List String)),
      (processRows headerMap importStamp start rows).1 =
        (rows.enumFrom start).filterMap
          (fun p => parseRow headerMap importStamp p.1 p.2) ∧
      (processRows headerMap importStamp start rows).2 =
        ((rows.enumFrom start).filter
          (fun p => (parseRow headerMap importStamp p.1 p.2).isNone)).length ∧
      (processRows headerMap importStamp start rows).1.length +
        (processRows headerMap importStamp start rows).2 = rows.length := by
  intro start rows
  induction rows generalizing start with
  | nil => exact ⟨rfl, rfl, rfl⟩
  | cons row rest ih =>
    obtain ⟨ih1, ih2, ih3⟩ := ih (start + 1)
    rw [processRows]
    cases hp : parseRow headerMap importStamp start row with
    | some t =>
      simp only [hp]
      refine ⟨?_, ?_, ?_⟩
      · rw [List.enumFrom_cons, List.filterMap_cons]
        simp only [hp]
        rw [ih1]
      · rw [List.enumFrom_cons, List.filter_cons]
        simp only [hp, Option.isNone_some]
        simp only [Bool.false_eq_true, if_false]
        rw [ih2]
      · simp only [List.length_cons]
        omega
    | none =>
      simp only [hp]
      refine ⟨?_, ?_, ?_⟩
      · rw [List.enumFrom_cons, List.filterMap_cons]
        simp only [hp]
        rw [ih1]
      · rw [List.enumFrom_cons, List.filter_cons]
        simp only [hp, Option.isNone_none, if_true]
        rw [List.length_cons, ih2]
      · simp only [List.length_cons]
        omega

/-- Scenario E data rows: a valid row, a row with an empty Entry Price cell,
    and another valid row. -/
def scenarioERow1 : List String :=
  ["T1", "2026-01-06", "AAPL", "Equity", "09:30", "10:30", "Breakout",
   "Long", "10", "100", "110", "95", "120", "Target Hit", "Web"]

def scenarioERow2 : List String :=
  ["T2", "2026-01-07", "MSFT", "Equity", "09:30", "10:30", "Breakout",
   "Long", "5", "", "105", "95", "120", "Manual", "Web"]

def scenarioERow3 : List String :=
  ["T3", "2026-01-08", "TSLA", "Equity", "09:30", "10:30", "Breakout",
   "Short", "2", "50", "40", "55", "35", "Stop Hit", "Web"]

/-- C8: every data row missing a required value is skipped and counted, the
    remaining valid rows are imported in order, imported + skipped accounts
    for every row (the batch never aborts); in particular, in a three-row
    batch whose middle row has no Entry Price, that row is skipped and
    counted once while the other two are imported. -/
theorem c8_invalid_rows_skipped (headerMap : List (List Nat × Nat))
    (importStamp start : Nat) (rows : List (List String)) :
    (processRows headerMap importStamp start rows).1 =
      (rows.enumFrom start).filterMap
        (fun p => parseRow headerMap importStamp p.1 p.2) ∧
    (processRows headerMap importStamp start rows).2 =
      ((rows.enumFrom start).filter
        (fun p => (parseRow headerMap importStamp p.1 p.2).isNone)).length ∧
    (processRows headerMap importStamp start rows).1.length +
      (processRows headerMap importStamp start rows).2 = rows.length ∧
    parseNumber (getCell (buildHeaderMap REQUIRED_HEADERS) scenarioERow2
      "Entry Price") = none ∧
    handleImportRows 7 [REQUIRED_HEADERS, scenarioERow1, scenarioERow2, scenarioERow3] =
      ImportResult.imported
        [{ tradeId := "T1", date := "2026-01-06", instrument := "AAPL",
           market := "Equity", entryTime := "09:30", exitTime := "10:30",
           strategy := "Breakout", direction := Direction.Long, sizeQty := 10,
           entryPrice := 100, exitPrice := 110, stopLoss := 95,
           targetPrice := 120, exitReason := "Target Hit", platform := "Web" },
         { tradeId := "T3", date := "2026-01-08", instrument := "TSLA",
           market := "Equity", entryTime := "09:30", exitTime := "10:30",
           strategy := "Breakout", direction := Direction.Short, sizeQty := 2,
           entryPrice := 50, exitPrice := 40, stopLoss := 55,
           targetPrice := 35, exitReason := "Stop Hit", platform := "Web" }] 1 := by
  obtain ⟨h1, h2, h3⟩ := processRows_spec headerMap importStamp start rows
  exact ⟨h1, h2, h3, by decide, by decide⟩

/- ===== C9: CSV export formatting ===== -/

theorem toFixed2Core_ne_empty (q : ℚ) : toFixed2Core q ≠ "" := by
  intro h
  have hd := congrArg String.data h
  rw [toFixed2Core] at hd
  simp only [String.data_append] at hd
  rcases List.append_eq_nil.mp hd with ⟨hl, hr⟩
  rcases List.append_eq_nil.mp hl with ⟨_, hdot⟩
  exact List.cons_ne_nil _ _ hdot

theorem toFixed2_ne_empty (q : ℚ) : toFixed2 q ≠ "" := by
  rw [toFixed2]
  by_cases h : q < 0
  · rw [if_pos h]
    intro h2
    have hd := congrArg String.data h2
    rw [String.data_append] at hd
    rcases List.append_eq_nil.mp hd with ⟨hl, _⟩
    exact List.cons_ne_nil _ _ hl
  · rw [if_neg h]
    exact toFixed2Core_ne_empty q

/-- A trade whose target equals its entry: risk 50 > 0, reward 0, so the
    derived riskReward is `some 0` — non-null but falsy in JS. -/
def zeroRRTrade : Trade :=
  { tradeId := "T-0", date := "2026-01-09", instrument := "AAPL",
    market := "Equity", entryTime := "09:30", exitTime := "10:30",
    strategy := "Breakout", direction := Direction.Long, sizeQty := 10,
    entryPrice := 100, exitPrice := 101, stopLoss := 95, targetPrice := 100,
    exitReason := "Manual", platform := "Web" }

/-- C9 counterexample: a derived trade with riskReward = 0 (non-null) gets an
    empty Risk-Reward cell in the CSV export, so the cell is not formatted to
    two decimals for every non-null riskReward and is not left empty only
    when riskReward is null. -/
theorem c9_zero_ratio_counterexample :
    (deriveTrade zeroRRTrade).riskReward = some 0 ∧
    (deriveTrade zeroRRTrade).riskReward ≠ none ∧
    (csvCells (deriveTrade zeroRRTrade)).get? 16 = some "" := by
  have h : (deriveTrade zeroRRTrade).riskReward = some 0 := by
    norm_num [deriveTrade, zeroRRTrade]
  have hc : (csvCells (deriveTrade zeroRRTrade)).get? 16 =
      some (match (deriveTrade zeroRRTrade).riskReward with
            | some v => if v = 0 then "" else toFixed2 v
            | none => "") := rfl
  refine ⟨h, by rw [h]; simp, ?_⟩
  rw [hc, h]
  simp

/-- C9 amended: the derived numeric fields risk, reward, pl and
    totalInvestment are formatted with toFixed(2); the Risk-Reward and R:R
    columns are formatted with toFixed(2) whenever the ratio is non-null and
    non-zero, and are empty exactly when the ratio is null or equal to 0 (the
    JS truthiness guard treats a 0 ratio like null). -/
theorem c9_csv_formatting (t : DerivedTrade) :
    (csvCells t).get? 14 = some (toFixed2 t.risk) ∧
    (csvCells t).get? 15 = some (toFixed2 t.reward) ∧
    (csvCells t).get? 17 = some (toFixed2 t.pl) ∧
    (csvCells t).get? 23 = some (toFixed2 t.totalInvestment) ∧
    ((csvCells t).get? 16 = some "" ↔ t.riskReward = none ∨ t.riskReward = some 0) ∧
    (∀ v, t.riskReward = some v → v ≠ 0 →
      (csvCells t).get? 16 = some (toFixed2 v)) ∧
    ((csvCells t).get? 21 = some "" ↔ t.rr = none ∨ t.rr = some 0) ∧
    (∀ v, t.rr = some v → v ≠ 0 →
      (csvCells t).get? 21 = some (toFixed2 v)) := by
  have hc16 : (csvCells t).get? 16 =
      some (match t.riskReward with
            | some v => if v = 0 then "" else toFixed2 v
            | none => "") := rfl
  have hc21 : (csvCells t).get? 21 =
      some (match t.rr with
            | some v => if v = 0 then "" else toFixed2 v
            | none => "") := rfl
  refine ⟨rfl, rfl, rfl, rfl, ?_, ?_, ?_, ?_⟩
  · rw [hc16]
    cases hrr : t.riskReward with
    | none => simp
    | some v =>
      by_cases hv : v = 0
      · rw [hv]
        simp
      · show some (if v = 0 then "" else toFixed2 v) = some "" ↔
          some v = none ∨ some v = some 0
        rw [if_neg hv]
        simp only [Option.some_inj]
        constructor
        · intro h
          exact absurd h (toFixed2_ne_empty v)
        · intro h
          rcases h with h | h
          · exact absurd h (by simp)
          · exact absurd h hv
  · intro v hv hv0
    rw [hc16, hv]
    show some (if v = 0 then "" else toFixed2 v) = some (toFixed2 v)
    rw [if_neg hv0]
  · rw [hc21]
    cases hrr : t.rr with
    | none => simp
    | some v =>
      by_cases hv : v = 0
      · rw [hv]
        simp
      · show some (if v = 0 then "" else toFixed2 v) = some "" ↔
          some v = none ∨ some v = some 0
        rw [if_neg hv]
        simp only [Option.some_inj]
        constructor
        · intro h
          exact absurd h (toFixed2_ne_empty v)
        · intro h
          rcases h with h | h
          · exact absurd h (by simp)
          · exact absurd h hv
  · intro v hv hv0
    rw [hc21, hv]
    show some (if v = 0 then "" else toFixed2 v) = some (toFixed2 v)
    rw [if_neg hv0]

/-- C9 witness: Scenario A's derived trade has riskReward = rr = 4, so both
    ratio cells are formatted with toFixed(2). -/
theorem c9_csv_formatting_witness :
    (deriveTrade scenarioATrade).riskReward = some 4 ∧
    (4 : ℚ) ≠ 0 ∧
    (csvCells (deriveTrade scenarioATrade)).get? 16 = some (toFixed2 4) ∧
    (csvCells (deriveTrade scenarioATrade)).get? 21 = some (toFixed2 4) ∧
    (csvCells (deriveTrade scenarioATrade)).get? 14 =
      some (toFixed2 (deriveTrade scenarioATrade).risk) := by
  have h := c9_csv_formatting (deriveTrade scenarioATrade)
  have hrr : (deriveTrade scenarioATrade).riskReward = some 4 := by
    norm_num [deriveTrade, scenarioATrade]
  have hrr2 : (deriveTrade scenarioATrade).rr = some 4 := by
    norm_num [deriveTrade, scenarioATrade]
  exact ⟨hrr, by norm_num,
    h.2.2.2.2.2.1 4 hrr (by norm_num),
    h.2.2.2.2.2.2.2 4 hrr2 (by norm_num), h.1⟩

/- ===== C10: groupStats partitions its input ===== -/

theorem mapPush_names (m : List (String × List DerivedTrade)) (key : String)
    (t : DerivedTrade) :
    ∀ a ∈ (mapPush m key t).map Prod.fst, a ∈ m.map Prod.fst ∨ a = key := by
  induction m with
  | nil =>
    intro a ha
    simp only [mapPush, List.map_cons, List.map_nil, List.mem_singleton] at ha
    exact Or.inr ha
  | cons g rest ih =>
    intro a ha
    obtain ⟨k, grp⟩ := g
    rw [mapPush] at ha
    by_cases h : k = key
    · rw [if_pos h] at ha
      simp only [List.map_cons, List.mem_cons] at ha ⊢
      rcases ha with ha | ha
      · exact Or.inl (Or.inl ha)
      · exact Or.inl (Or.inr ha)
    · rw [if_neg h] at ha
      simp only [List.map_cons, List.mem_cons] at ha ⊢
      rcases ha with ha | ha
      · exact Or.inl (Or.inl ha)
      · rcases ih a ha with h2 | h2
        · exact Or.inl (Or.inr h2)
        · exact Or.inr h2

theorem mapPush_nodup (m : List (String × List DerivedTrade)) (key : String)
    (t : DerivedTrade) (h : (m.map Prod.fst).Nodup) :
    ((mapPush m key t).map Prod.fst).Nodup := by
  induction m with
  | nil => simp [mapPush]
  | cons g rest ih =>
    obtain ⟨k, grp⟩ := g
    rw [List.map_cons, List.nodup_cons] at h
    rw [mapPush]
    by_cases hk : k = key
    · rw [if_pos hk]
      rw [List.map_cons, List.nodup_cons]
      exact h
    · rw [if_neg hk]
      rw [List.map_cons, List.nodup_cons]
      refine ⟨?_, ih h.2⟩
      intro hmem
      rcases mapPush_names rest key t k hmem with h2 | h2
      · exact h.1 h2
      · exact hk h2

theorem mapPush_join (m : List (String × List DerivedTrade)) (key : String)
    (t : DerivedTrade) :
    ((mapPush m key t).map Prod.snd).flatten.Perm (t :: (m.map Prod.snd).flatten) := by
  induction m with
  | nil => simp [mapPush]
  | cons g rest ih =>
    obtain ⟨k, grp⟩ := g
    rw [mapPush]
    by_cases hk : k = key
    · rw [if_pos hk]
      simp only [List.map_cons, List.flatten_cons]
      exact (List.perm_append_singleton t grp).append_right _
    · rw [if_neg hk]
      simp only [List.map_cons, List.flatten_cons]
      exact (ih.append_left grp).trans List.perm_middle

theorem mapPush_groups (P : DerivedTrade → String → Prop)
    (m : List (String × List DerivedTrade)) (key : String) (t : DerivedTrade)
    (hm : ∀ g ∈ m, g.2 ≠ [] ∧ ∀ u ∈ g.2, P u g.1) (ht : P t key) :
    ∀ g ∈ mapPush m key t, g.2 ≠ [] ∧ ∀ u ∈ g.2, P u g.1 := by
  induction m with
  | nil =>
    intro g hg
    rw [mapPush, List.mem_singleton] at hg
    rw [hg]
    exact ⟨List.cons_ne_nil t [], fun u hu => by
      rw [List.mem_singleton] at hu
      rw [hu]; exact ht⟩
  | cons g0 rest ih =>
    intro g hg
    obtain ⟨k, grp⟩ := g0
    rw [mapPush] at hg
    by_cases hk : k = key
    · rw [if_pos hk] at hg
      rw [List.mem_cons] at hg
      rcases hg with hg | hg
      · rw [hg]
        have h0 := hm (k, grp) (List.mem_cons_self _ _)
        refine ⟨by simp, fun u hu => ?_⟩
        rw [List.mem_append] at hu
        rcases hu with hu | hu
        · exact h0.2 u hu
        · rw [List.mem_singleton] at hu
          rw [hu, hk]
          exact ht
      · exact hm g (List.mem_cons_of_mem _ hg)
    · rw [if_neg hk] at hg
      rw [List.mem_cons] at hg
      rcases hg with hg | hg
      · rw [hg]
        exact hm (k, grp) (List.mem_cons_self _ _)
      · exact ih (fun g2 hg2 => hm g2 (List.mem_cons_of_mem _ hg2)) g hg

theorem groupFold_nodup (keyFn : DerivedTrade → String) :
    ∀ (ts : List DerivedTrade) (m : List (String × List DerivedTrade)),
      (m.map Prod.fst).Nodup →
      ((ts.foldl (fun m t =>
          mapPush m (if keyFn t = "" then "Unspecified" else keyFn t) t) m).map
        Prod.fst).Nodup := by
  intro ts
  induction ts with
  | nil => intro m h; exact h
  | cons t rest ih =>
    intro m h
    rw [List.foldl_cons]
    exact ih _ (mapPush_nodup m _ t h)

theorem groupFold_flatten (keyFn : DerivedTrade → String) :
    ∀ (ts : List DerivedTrade) (m : List (String × List DerivedTrade)),
      ((ts.foldl (fun m t =>
          mapPush m (if keyFn t = "" then "Unspecified" else keyFn t) t) m).map
        Prod.snd).flatten.Perm (ts ++ (m.map Prod.snd).flatten) := by
  intro ts
  induction ts with
  | nil => intro m; simp
  | cons t rest ih =>
    intro m
    rw [List.foldl_cons]
    exact ((ih _).trans ((mapPush_join m _ t).append_left rest)).trans List.perm_middle

theorem groupFold_groups (keyFn : DerivedTrade → String) :
    ∀ (ts : List DerivedTrade) (m : List (String × List DerivedTrade)),
      (∀ g ∈ m, g.2 ≠ [] ∧
        ∀ u ∈ g.2, (if keyFn u = "" then "Unspecified" else keyFn u) = g.1) →
      ∀ g ∈ ts.foldl (fun m t =>
          mapPush m (if keyFn t = "" then "Unspecified" else keyFn t) t) m,
        g.2 ≠ [] ∧
        ∀ u ∈ g.2, (if keyFn u = "" then "Unspecified" else keyFn u) = g.1 := by
  intro ts
  induction ts with
  | nil => intro m h; exact h
  | cons t rest ih =>
    intro m h
    rw [List.foldl_cons]
    exact ih _ (mapPush_groups _ m _ t h rfl)

/-- C10: `groupStats` partitions its input: every group is keyed by the
    (empty-coerced) key of the trades it holds, no two groups share a name,
    no group is empty, the groups' contents are exactly the input trades, and
    the per-group trades counts sum to the input length. -/
theorem c10_group_partition (trades : List DerivedTrade) (keyFn : DerivedTrade → String) :
    (∀ g ∈ groupTrades trades keyFn, g.2 ≠ [] ∧
      ∀ u ∈ g.2, (if keyFn u = "" then "Unspecified" else keyFn u) = g.1) ∧
    ((groupTrades trades keyFn).map Prod.fst).Nodup ∧
    ((groupTrades trades keyFn).map Prod.snd).flatten.Perm trades ∧
    (∀ s ∈ groupStats trades keyFn, s.trades ≠ 0) ∧
    ((groupStats trades keyFn).map GroupStat.trades).sum = trades.length := by
  have hgroups := groupFold_groups keyFn trades []
    (fun g hg => absurd hg (List.not_mem_nil g))
  have hnodup := groupFold_nodup keyFn trades [] List.nodup_nil
  have hflat := groupFold_flatten keyFn trades []
  rw [List.map_nil, List.flatten_nil, List.append_nil] at hflat
  refine ⟨hgroups, hnodup, hflat, ?_, ?_⟩
  · intro s hs
    rw [groupStats, List.mem_map] at hs
    obtain ⟨g, hg, rfl⟩ := hs
    have hlen : (computeSummary g.2).totalTrades = g.2.length := rfl
    simp only [hlen]
    intro h0
    exact (hgroups g hg).1 (List.length_eq_zero.mp h0)
  · have hmap : (groupStats trades keyFn).map GroupStat.trades =
        (groupTrades trades keyFn).map (fun g => g.2.length) := by
      rw [groupStats, List.map_map]
      rfl
    rw [hmap]
    have hlen : ((groupTrades trades keyFn).map Prod.snd).flatten.length = trades.length :=
      hflat.length_eq
    rw [List.length_flatten, List.map_map] at hlen
    exact hlen

/-- C10 witness: grouping Scenario A's trade and the zero-risk trade by
    strategy gives the non-empty "Breakout" group keyed correctly, and the
    group sizes sum to the input length 2. -/
theorem c10_group_partition_witness :
    (("Breakout", [deriveTrade scenarioATrade]) : String × List DerivedTrade).2 ≠ [] ∧
    (∀ u ∈ (("Breakout", [deriveTrade scenarioATrade]) : String × List DerivedTrade).2,
      (if u.strategy = "" then "Unspecified" else u.strategy) = "Breakout") ∧
    ((groupStats [deriveTrade scenarioATrade, deriveTrade zeroRiskTrade]
      (fun t => t.strategy)).map GroupStat.trades).sum = 2 := by
  have h := c10_group_partition [deriveTrade scenarioATrade, deriveTrade zeroRiskTrade]
    (fun t => t.strategy)
  have hgt : groupTrades [deriveTrade scenarioATrade, deriveTrade zeroRiskTrade]
      (fun t => t.strategy) =
      [("Breakout", [deriveTrade scenarioATrade]),
       ("Scalp", [deriveTrade zeroRiskTrade])] := rfl
  have hmem : (("Breakout", [deriveTrade scenarioATrade]) : String × List DerivedTrade) ∈
      groupTrades [deriveTrade scenarioATrade, deriveTrade zeroRiskTrade]
        (fun t => t.strategy) := by
    rw [hgt]
    exact List.mem_cons_self _ _
  have hg := h.1 _ hmem
  exact ⟨hg.1, hg.2, by rw [h.2.2.2.2]; rfl⟩

end TradeJournal
